import Mathlib

/-!
Shallow embedding of `src/backend/infrastructure/resource_manager.py`
(trading-bot repository): resource monitoring (`ResourceMonitor`),
the priority task queue (`TaskQueue`) and its event fan-out.

Modelling conventions:
* Python floats are modelled as rationals (`ℚ`); the comparisons the code
  performs are far from representation boundaries, and every number the
  code manipulates here is an exact decimal.
* `psutil` sampling (`get_current_resources`) is I/O; a sampled snapshot is
  passed to `can_run_task` as an explicit `SystemResources` argument.
* `asyncio.create_task(self._execute_task(task))` dispatches a wrapper that
  runs later; dispatched-but-unfinished wrappers are modelled as the
  `inflight` list of the state, and the environment chooses when a wrapper
  finishes and whether the wrapped `task_func` returned or raised
  (an `Except String Unit` outcome).
* `self.running_tasks` is a Python dict (insertion ordered, key-unique);
  it is modelled as an association list with dict insert/remove semantics.
* Events are delivered to subscriber queues via `put_nowait`; the state
  additionally keeps a ghost log `events` of every emitted event, in
  emission order, so that theorems can speak about what was emitted.
* `uuid.uuid4()` generation and caller-supplied ids are both modelled by
  letting the environment choose an arbitrary `task_id` string.
* Timestamps (`datetime.now()`, `queued_at`) are modelled by a logical
  clock `clock` that every task records at creation time in its `seq`
  field; the code only ever uses `queued_at` as an opaque value, and the
  `seq` numbers let theorems speak about arrival order.
-/

namespace ResourceManager

/-- Types of tasks with different resource requirements (`TaskType`). -/
inductive TaskType
  | BACKTEST
  | MODEL_TRAINING
  | PREDICTION
deriving DecidableEq, Repr

/-- Resource requirements for a task (`ResourceRequirements`). -/
structure ResourceRequirements where
  cpu_cores : ℚ
  ram_gb : ℚ
deriving DecidableEq, Repr

/-- The static table `TASK_RESOURCE_REQUIREMENTS`. -/
def TASK_RESOURCE_REQUIREMENTS : TaskType → ResourceRequirements
  | .BACKTEST => ⟨1, 1/2⟩        -- 1.0 core, 0.5 GB
  | .MODEL_TRAINING => ⟨2, 3/2⟩  -- 2.0 cores, 1.5 GB
  | .PREDICTION => ⟨1/2, 3/10⟩   -- 0.5 core, 0.3 GB

/-- Current system resource availability (`SystemResources`); filled from a
psutil sample in the code, supplied by the environment here.  Only the
fields `can_run_task` reads are kept. -/
structure SystemResources where
  available_cpu_cores : ℚ
  available_ram_gb : ℚ
deriving DecidableEq, Repr

/-- The `ResourceMonitor` configuration state set up by `__init__`:
buffer percentage, consumption factor and machine totals. -/
structure ResourceMonitor where
  buffer_percent : ℚ
  consumption_factor : ℚ
  total_cpu_cores : ℚ
  total_ram_gb : ℚ
deriving DecidableEq, Repr

/-- The body of `ResourceMonitor.__init__`: development mode forces a 5%
buffer and 50% consumption factor; production keeps the given
`buffer_percent` (default 0.20 at every call site) and an 80% consumption
factor.  The machine totals come from psutil and are parameters here. -/
def mkResourceMonitor (is_dev_mode : Bool) (buffer_percent : ℚ)
    (total_cpu_cores total_ram_gb : ℚ) : ResourceMonitor :=
  if is_dev_mode then ⟨1/20, 1/2, total_cpu_cores, total_ram_gb⟩   -- 0.05, 0.50
  else ⟨buffer_percent, 4/5, total_cpu_cores, total_ram_gb⟩        -- 0.80

/-- Minimum CPU threshold `self.min_cpu_cores = total * buffer_percent`. -/
def ResourceMonitor.min_cpu_cores (m : ResourceMonitor) : ℚ :=
  m.total_cpu_cores * m.buffer_percent

/-- Minimum RAM threshold `self.min_ram_gb = total * buffer_percent`. -/
def ResourceMonitor.min_ram_gb (m : ResourceMonitor) : ℚ :=
  m.total_ram_gb * m.buffer_percent

/-- The reason string returned by `can_run_task`, modelled structurally:
each constructor is one of the three f-strings of the code and carries
exactly the numbers interpolated into that string. -/
inductive Reason
  | insufficientCPU (need available would_leave min_threshold : ℚ)
  | insufficientRAM (need available would_leave min_threshold : ℚ)
  | canRun (cpu_remaining ram_remaining : ℚ)
deriving DecidableEq, Repr

/-- The numbers interpolated into the reason string: `r.mentions q` holds
when the rendered string contains the numeral for `q`. -/
def Reason.mentions : Reason → ℚ → Prop
  | .insufficientCPU a b c d, q => q = a ∨ q = b ∨ q = c ∨ q = d
  | .insufficientRAM a b c d, q => q = a ∨ q = b ∨ q = c ∨ q = d
  | .canRun a b, q => q = a ∨ q = b

/-- `ResourceMonitor.can_run_task`: predictive admission check.  `res` is
the psutil snapshot taken by `get_current_resources` inside the call;
`cf` is the optional `consumption_factor` argument (`none` at every call
site in the repository, falling back to the instance factor). -/
def ResourceMonitor.can_run_task (m : ResourceMonitor) (res : SystemResources)
    (task_type : TaskType) (cf : Option ℚ) : Bool × Reason :=
  let consumption_factor := cf.getD m.consumption_factor
  let requirements := TASK_RESOURCE_REQUIREMENTS task_type
  let predicted_cpu_consumption := requirements.cpu_cores * consumption_factor
  let predicted_ram_consumption := requirements.ram_gb * consumption_factor
  let predicted_cpu_available := res.available_cpu_cores - predicted_cpu_consumption
  let predicted_ram_available := res.available_ram_gb - predicted_ram_consumption
  let cpu_ok : Bool := decide (predicted_cpu_available ≥ m.min_cpu_cores)
  let ram_ok : Bool := decide (predicted_ram_available ≥ m.min_ram_gb)
  if ¬ cpu_ok then
    (false, .insufficientCPU predicted_cpu_consumption res.available_cpu_cores
      predicted_cpu_available m.min_cpu_cores)
  else if ¬ ram_ok then
    (false, .insufficientRAM predicted_ram_consumption res.available_ram_gb
      predicted_ram_available m.min_ram_gb)
  else
    (true, .canRun predicted_cpu_available predicted_ram_available)

/-- A task waiting in the queue (`QueuedTask`).  The `task_func` callable
is not part of the data (its eventual outcome is chosen by the environment
at completion time); `queued_at` is modelled by the logical arrival
number `seq`. -/
structure QueuedTask where
  task_id : String
  task_type : TaskType
  priority : Int
  seq : Nat
  estimated_cpu_cores : ℚ
  estimated_ram_gb : ℚ
  description : String
deriving DecidableEq, Repr

/-- Construction of a `QueuedTask` followed by `__post_init__`: whatever
estimated figures the constructor receives, `__post_init__` overwrites
both estimated fields from `TASK_RESOURCE_REQUIREMENTS[self.task_type]`. -/
def mkQueuedTask (task_id : String) (task_type : TaskType) (priority : Int)
    (seq : Nat) (supplied_cpu supplied_ram : ℚ) (description : String) : QueuedTask :=
  let requirements := TASK_RESOURCE_REQUIREMENTS task_type
  ⟨task_id, task_type, priority, seq, requirements.cpu_cores, requirements.ram_gb,
    description⟩

/-- Events emitted by the queue; one constructor per `event_type` string,
carrying exactly the fields of the corresponding `data` payload. -/
inductive Event
  | task_queued (task_id : String) (task_type : TaskType)
      (estimated_cpu_cores estimated_ram_gb : ℚ) (queue_position : Nat)
      (description : String)
  | task_running (task_id : String) (task_type : TaskType)
      (estimated_cpu_cores estimated_ram_gb : ℚ)
  | task_completed (task_id : String) (task_type : TaskType) (success : Bool)
  | task_description_update (task_id : String) (task_type : TaskType)
      (description : String)
deriving DecidableEq, Repr

/-- A subscriber channel (an `asyncio.Queue`): `maxsize = 0` means
unbounded, matching asyncio semantics. -/
structure Subscriber where
  maxsize : Nat
  buffer : List Event
deriving DecidableEq, Repr

/-- Whether `put_nowait` would raise `QueueFull` on this channel. -/
def Subscriber.isFull (s : Subscriber) : Bool :=
  decide (0 < s.maxsize) && decide (s.maxsize ≤ s.buffer.length)

/-- `asyncio.Queue.put_nowait` as called inside `_emit_event`: the
surrounding `try/except QueueFull` turns the raise into a drop for this
subscriber only. -/
def Subscriber.put_nowait (s : Subscriber) (e : Event) : Subscriber :=
  if s.isFull then s else ⟨s.maxsize, s.buffer ++ [e]⟩

/-- Python dict membership `k in d` on the association-list model. -/
def dictContains (d : List (String × QueuedTask)) (k : String) : Bool :=
  d.any (fun p => p.1 == k)

/-- Python dict assignment `d[k] = v`: replace in place when the key
exists, append otherwise. -/
def dictInsert (d : List (String × QueuedTask)) (k : String) (v : QueuedTask) :
    List (String × QueuedTask) :=
  if dictContains d k then d.map (fun p => if p.1 == k then (k, v) else p)
  else d ++ [(k, v)]

/-- Python dict deletion `del d[k]`. -/
def dictRemove (d : List (String × QueuedTask)) (k : String) :
    List (String × QueuedTask) :=
  d.filter (fun p => !(p.1 == k))

/-- Python dict lookup `d[k]` (as an option). -/
def dictGet? (d : List (String × QueuedTask)) (k : String) : Option QueuedTask :=
  (d.find? (fun p => p.1 == k)).map Prod.snd

/-- The `TaskQueue` state: the pending deque `queue` (head first), the
running dict, the event subscribers, the dispatched-but-unfinished
execution wrappers `inflight`, the ghost log of emitted events, and the
logical clock standing in for `datetime.now()`. -/
structure TaskQueue where
  queue : List QueuedTask
  running_tasks : List (String × QueuedTask)
  subscribers : List Subscriber
  inflight : List QueuedTask
  events : List Event
  clock : Nat
deriving DecidableEq, Repr

/-- `TaskQueue.__init__`: empty queue, no running tasks, no subscribers. -/
def initState : TaskQueue := ⟨[], [], [], [], [], 0⟩

/-- `TaskQueue._emit_event`: append the event to the ghost log and offer it
to every subscriber with `put_nowait`, dropping it at full channels.  The
timestamp and the psutil resource snapshot attached to the envelope are
I/O decoration and are not modelled.  The call never raises (both
exception handlers swallow) and never waits. -/
def TaskQueue.emit_event (st : TaskQueue) (e : Event) : TaskQueue :=
  ⟨st.queue, st.running_tasks, st.subscribers.map (fun s => s.put_nowait e),
    st.inflight, st.events ++ [e], st.clock⟩

/-- The insertion loop of `TaskQueue.enqueue`: walk the deque and insert
before the first existing task whose priority is strictly lower than the
new task's; append at the tail when no such task exists. -/
def insertByPriority (q : List QueuedTask) (t : QueuedTask) : List QueuedTask :=
  match q with
  | [] => [t]
  | x :: xs =>
      if t.priority > x.priority then t :: x :: xs
      else x :: insertByPriority xs t

/-- `TaskQueue.enqueue`: build the `QueuedTask` (dataclass defaults 0.0 for
the estimated fields, then `__post_init__`), insert by priority, then emit
`task_queued` whose `queue_position` field is `len(self.queue)` after the
insertion.  Returns the new state and the returned `task_id`. -/
def TaskQueue.enqueue (st : TaskQueue) (task_type : TaskType) (priority : Int)
    (task_id : String) : TaskQueue × String :=
  let queued_task := mkQueuedTask task_id task_type priority st.clock 0 0 ""
  let queue2 := insertByPriority st.queue queued_task
  let st2 : TaskQueue :=
    ⟨queue2, st.running_tasks, st.subscribers, st.inflight, st.events, st.clock + 1⟩
  (st2.emit_event (.task_queued task_id task_type queued_task.estimated_cpu_cores
      queued_task.estimated_ram_gb queue2.length queued_task.description),
    task_id)

/-- `TaskQueue.try_execute_next`: peek the head; return `none` on an empty
queue; ask `can_run_task` for the head's type against the snapshot `res`;
on rejection return `none` leaving the state untouched; on admission pop
the head, put it in the running dict, dispatch its execution wrapper
(`asyncio.create_task`) and return its id immediately. -/
def TaskQueue.try_execute_next (m : ResourceMonitor) (res : SystemResources)
    (st : TaskQueue) : Option String × TaskQueue :=
  match st.queue with
  | [] => (none, st)
  | next_task :: rest =>
      let checked := m.can_run_task res next_task.task_type none
      if checked.1 then
        (some next_task.task_id,
          ⟨rest, dictInsert st.running_tasks next_task.task_id next_task,
            st.subscribers, st.inflight ++ [next_task], st.events, st.clock⟩)
      else (none, st)

/-- The success flag computed by `_execute_task`: true exactly when the
awaited `task_func` returned normally; any raise is caught by the
`except Exception` arm and leaves `success = False`. -/
def successOf : Except String Unit → Bool
  | .ok _ => true
  | .error _ => false

/-- The tail of `TaskQueue._execute_task` after `task_func` has run: the
`finally` block deletes the id from the running dict and emits
`task_completed` only when the id is still present. -/
def TaskQueue.execute_task_finish (st : TaskQueue) (task : QueuedTask)
    (outcome : Except String Unit) : TaskQueue :=
  let success := successOf outcome
  if dictContains st.running_tasks task.task_id then
    TaskQueue.emit_event
      ⟨st.queue, dictRemove st.running_tasks task.task_id, st.subscribers,
        st.inflight, st.events, st.clock⟩
      (.task_completed task.task_id task.task_type success)
  else st

/-- Completion of the dispatched wrapper at position `i` of `inflight`:
the wrapper runs exactly once, so it is removed from `inflight`, and its
`finally` block (`execute_task_finish`) runs with the environment-chosen
outcome of `task_func`.  Out-of-range indices leave the state unchanged
(the step relation only uses in-range ones). -/
def TaskQueue.finishAt (st : TaskQueue) (i : Nat) (outcome : Except String Unit) :
    TaskQueue :=
  match st.inflight.get? i with
  | none => st
  | some task =>
      TaskQueue.execute_task_finish
        ⟨st.queue, st.running_tasks, st.subscribers, st.inflight.eraseIdx i,
          st.events, st.clock⟩
        task outcome

/-- `TaskQueue.register_running_task`: build the task (priority 0), put it
straight into the running dict, emit `task_running`, dispatch the
execution wrapper, return the id. -/
def TaskQueue.register_running_task (st : TaskQueue) (task_type : TaskType)
    (task_id : String) : TaskQueue × String :=
  let queued_task := mkQueuedTask task_id task_type 0 st.clock 0 0 ""
  let st2 : TaskQueue :=
    ⟨st.queue, dictInsert st.running_tasks task_id queued_task, st.subscribers,
      st.inflight, st.events, st.clock + 1⟩
  let st3 := st2.emit_event (.task_running task_id task_type
    queued_task.estimated_cpu_cores queued_task.estimated_ram_gb)
  (⟨st3.queue, st3.running_tasks, st3.subscribers, st3.inflight ++ [queued_task],
      st3.events, st3.clock⟩,
    task_id)

/-- Overwrite the description field (`task.description = description`). -/
def QueuedTask.withDescription (t : QueuedTask) (d : String) : QueuedTask :=
  ⟨t.task_id, t.task_type, t.priority, t.seq, t.estimated_cpu_cores,
    t.estimated_ram_gb, d⟩

/-- `TaskQueue.update_task_description`: when the id is running, mutate its
description and emit `task_description_update`; otherwise do nothing. -/
def TaskQueue.update_task_description (st : TaskQueue) (task_id : String)
    (description : String) : TaskQueue :=
  match dictGet? st.running_tasks task_id with
  | none => st
  | some task =>
      TaskQueue.emit_event
        ⟨st.queue,
          dictInsert st.running_tasks task_id (task.withDescription description),
          st.subscribers, st.inflight, st.events, st.clock⟩
        (.task_description_update task_id task.task_type description)

/-- `TaskQueue.subscribe_to_events`: append a fresh unbounded channel. -/
def TaskQueue.subscribe_to_events (st : TaskQueue) : TaskQueue :=
  ⟨st.queue, st.running_tasks, st.subscribers ++ [⟨0, []⟩], st.inflight,
    st.events, st.clock⟩

/-- `TaskQueue.unsubscribe_from_events`: remove the channel at index `i`
(identified by object identity in the code). -/
def TaskQueue.unsubscribe_from_events (st : TaskQueue) (i : Nat) : TaskQueue :=
  ⟨st.queue, st.running_tasks, st.subscribers.eraseIdx i, st.inflight,
    st.events, st.clock⟩

/-- One row of `get_queue_status()["queued_tasks"]`. -/
structure QueuedTaskStatus where
  task_id : String
  task_type : TaskType
  priority : Int
  estimated_cpu_cores : ℚ
  estimated_ram_gb : ℚ
  queue_position : Nat
  description : String
deriving DecidableEq, Repr

/-- One row of `get_queue_status()["running_tasks"]`. -/
structure RunningTaskStatus where
  task_id : String
  task_type : TaskType
  estimated_cpu_cores : ℚ
  estimated_ram_gb : ℚ
  description : String
deriving DecidableEq, Repr

/-- The snapshot returned by `get_queue_status`. -/
structure QueueStatus where
  queued_count : Nat
  running_count : Nat
  queued_tasks : List QueuedTaskStatus
  running_tasks : List RunningTaskStatus
deriving DecidableEq, Repr

/-- `TaskQueue.get_queue_status`: counts plus per-task rows; queued rows
carry the 1-indexed `queue_position = i + 1`. -/
def TaskQueue.get_queue_status (st : TaskQueue) : QueueStatus :=
  ⟨st.queue.length, st.running_tasks.length,
    st.queue.enum.map (fun p =>
      ⟨p.2.task_id, p.2.task_type, p.2.priority, p.2.estimated_cpu_cores,
        p.2.estimated_ram_gb, p.1 + 1, p.2.description⟩),
    st.running_tasks.map (fun p =>
      ⟨p.2.task_id, p.2.task_type, p.2.estimated_cpu_cores,
        p.2.estimated_ram_gb, p.2.description⟩)⟩

/-- `TaskQueue.get_task_position`: 1-indexed position of the first queued
task with the given id, `none` when the id is not queued. -/
def TaskQueue.get_task_position (st : TaskQueue) (task_id : String) : Option Nat :=
  match st.queue.findIdx? (fun t => t.task_id == task_id) with
  | some i => some (i + 1)
  | none => none

/-- Identifiers of the pending tasks, in deque order. -/
def queuedIds (st : TaskQueue) : List String :=
  st.queue.map QueuedTask.task_id

/-- Keys of the running dict, in insertion order. -/
def runningIds (st : TaskQueue) : List String :=
  st.running_tasks.map Prod.fst

/-- Identifiers of the dispatched-but-unfinished execution wrappers. -/
def inflightIds (st : TaskQueue) : List String :=
  st.inflight.map QueuedTask.task_id

/-- Identifiers visible in either the pending deque or the running dict. -/
def allTaskIds (st : TaskQueue) : List String :=
  queuedIds st ++ runningIds st

/-- One atomic step of the system.  Each lock-protected mutation of the
code is one step; the environment chooses the arguments (task types,
priorities, ids, psutil snapshots, wrapper outcomes and scheduling
order).  When `fresh = true`, caller-supplied ids are required to be
fresh — not currently pending or running — which is in particular how
`uuid.uuid4()`-generated ids behave; with `fresh = false` the id choice
is unconstrained. -/
inductive Step (m : ResourceMonitor) (fresh : Bool) : TaskQueue → TaskQueue → Prop
  | enqueue (st : TaskQueue) (tt : TaskType) (pr : Int) (tid : String)
      (hfresh : fresh = true → tid ∉ allTaskIds st) :
      Step m fresh st (st.enqueue tt pr tid).1
  | tryNext (st : TaskQueue) (res : SystemResources) :
      Step m fresh st (TaskQueue.try_execute_next m res st).2
  | register (st : TaskQueue) (tt : TaskType) (tid : String)
      (hfresh : fresh = true → tid ∉ allTaskIds st) :
      Step m fresh st (st.register_running_task tt tid).1
  | finish (st : TaskQueue) (i : Nat) (outcome : Except String Unit)
      (h : i < st.inflight.length) :
      Step m fresh st (st.finishAt i outcome)
  | updateDescription (st : TaskQueue) (tid d : String) :
      Step m fresh st (st.update_task_description tid d)
  | subscribe (st : TaskQueue) :
      Step m fresh st st.subscribe_to_events
  | unsubscribe (st : TaskQueue) (i : Nat) :
      Step m fresh st (st.unsubscribe_from_events i)

/-- States reachable from a freshly constructed `TaskQueue`. -/
def Reachable (m : ResourceMonitor) (fresh : Bool) (st : TaskQueue) : Prop :=
  Relation.ReflTransGen (Step m fresh) initState st

/-- The intended deque order: strictly higher priority first, and among
equal priorities the earlier arrival (smaller `seq`) first. -/
def queueRel (a b : QueuedTask) : Prop :=
  b.priority < a.priority ∨ (a.priority = b.priority ∧ a.seq < b.seq)

/-- A task's estimated footprint agrees with the static requirement table
for its type. -/
def estOk (t : QueuedTask) : Prop :=
  t.estimated_cpu_cores = (TASK_RESOURCE_REQUIREMENTS t.task_type).cpu_cores ∧
  t.estimated_ram_gb = (TASK_RESOURCE_REQUIREMENTS t.task_type).ram_gb

/-- CPU headroom of an admission check: predicted available CPU after the
task starts, minus the minimum CPU threshold. -/
def cpuHeadroom (m : ResourceMonitor) (res : SystemResources) (tt : TaskType)
    (cf : Option ℚ) : ℚ :=
  (res.available_cpu_cores
      - (TASK_RESOURCE_REQUIREMENTS tt).cpu_cores * cf.getD m.consumption_factor)
    - m.min_cpu_cores

/-- RAM headroom of an admission check: predicted available RAM after the
task starts, minus the minimum RAM threshold. -/
def ramHeadroom (m : ResourceMonitor) (res : SystemResources) (tt : TaskType)
    (cf : Option ℚ) : ℚ :=
  (res.available_ram_gb
      - (TASK_RESOURCE_REQUIREMENTS tt).ram_gb * cf.getD m.consumption_factor)
    - m.min_ram_gb

/-- The production-profile monitor of the numeric scenarios: no dev mode,
default 20% buffer, totals of 8 cores and 16 GB RAM. -/
def prodMonitor : ResourceMonitor := mkResourceMonitor false (1/5) 8 16  -- buffer 0.20

/-- Scenario: the same caller-supplied id enqueued twice in a row. -/
def dupEnqueueScenario : TaskQueue :=
  ((initState.enqueue .BACKTEST 0 "a").1.enqueue .BACKTEST 0 "a").1

/-- Scenario: the same caller-supplied id registered as running twice, then
the first of the two dispatched wrappers finishes. -/
def dupRegScenario : TaskQueue :=
  (((initState.register_running_task .BACKTEST "a").1.register_running_task
      .BACKTEST "a").1).finishAt 0 (.ok ())

/-- Scenario: a low-priority task enqueued, then a higher-priority one. -/
def priorityEnqueueScenario : TaskQueue :=
  ((initState.enqueue .BACKTEST 0 "a").1.enqueue .BACKTEST 1 "b").1

/-- Scenario: a single task registered as running (one wrapper in flight). -/
def oneRegScenario : TaskQueue :=
  (initState.register_running_task .BACKTEST "a").1

/-- Scenario: two enqueues with increasing priority. -/
def sortScenario : TaskQueue :=
  ((initState.enqueue .BACKTEST 0 "a").1.enqueue .MODEL_TRAINING 5 "b").1

/-- Scenario: a MODEL_TRAINING task waiting at the head of the queue. -/
def rejectScenario : TaskQueue :=
  (initState.enqueue .MODEL_TRAINING 0 "mt").1

/-- Scenario: a PREDICTION task registered as running. -/
def regScenarioC10 : TaskQueue :=
  (initState.register_running_task .PREDICTION "p").1

/-- Structural well-formedness of a queue state: no duplicated id inside
the pending deque or the running dict, no id in both, the ids of
dispatched wrappers are pairwise distinct and all still registered as
running. -/
structure Inv (st : TaskQueue) : Prop where
  nodup_q : (queuedIds st).Nodup
  nodup_r : (runningIds st).Nodup
  disj : ∀ tid, tid ∈ queuedIds st → tid ∉ runningIds st
  nodup_f : (inflightIds st).Nodup
  fsub : ∀ tid, tid ∈ inflightIds st → tid ∈ runningIds st
  keyed : ∀ p, p ∈ st.running_tasks → p.2.task_id = p.1

/-- Ordering invariant of the pending deque: sorted by `queueRel`, and
every queued task arrived before the present logical time. -/
def SortInv (st : TaskQueue) : Prop :=
  List.Pairwise queueRel st.queue ∧ ∀ t, t ∈ st.queue → t.seq < st.clock

/-- Every task held anywhere by the queue carries the table footprint. -/
def EstInv (st : TaskQueue) : Prop :=
  (∀ t, t ∈ st.queue → estOk t) ∧
  (∀ p, p ∈ st.running_tasks → estOk p.2) ∧
  (∀ t, t ∈ st.inflight → estOk t)

/-! ### Lemmas about the dict model -/

theorem dictContains_iff {d : List (String × QueuedTask)} {k : String} :
    dictContains d k = true ↔ k ∈ d.map Prod.fst := by
  simp [dictContains, List.any_eq_true, List.mem_map]

theorem keys_map_replace (d : List (String × QueuedTask)) (k : String)
    (v : QueuedTask) :
    (d.map (fun p => if p.1 == k then (k, v) else p)).map Prod.fst
      = d.map Prod.fst := by
  rw [List.map_map]
  refine List.map_congr_left ?_
  intro p _
  by_cases hp : p.1 = k
  · simp [hp]
  · simp [hp]

theorem keys_dictInsert (d : List (String × QueuedTask)) (k : String)
    (v : QueuedTask) :
    (dictInsert d k v).map Prod.fst =
      if dictContains d k then d.map Prod.fst else d.map Prod.fst ++ [k] := by
  unfold dictInsert
  split
  · exact keys_map_replace d k v
  · simp

theorem mem_dictInsert {d : List (String × QueuedTask)} {k : String}
    {v : QueuedTask} {p : String × QueuedTask} (h : p ∈ dictInsert d k v) :
    p = (k, v) ∨ p ∈ d := by
  unfold dictInsert at h
  split at h
  · rcases List.mem_map.mp h with ⟨q, hq, he⟩
    by_cases hqk : q.1 = k
    · left
      simpa [hqk] using he.symm
    · right
      have he' : q = p := by simpa [hqk] using he
      exact he' ▸ hq
  · rcases List.mem_append.mp h with hp | hp
    · exact Or.inr hp
    · left
      simpa using hp

theorem keys_dictRemove (d : List (String × QueuedTask)) (k : String) :
    (dictRemove d k).map Prod.fst = (d.map Prod.fst).filter (fun x => !(x == k)) :=
  (@List.filter_map (String × QueuedTask) String (fun x => !(x == k)) Prod.fst d).symm

theorem mem_keys_dictRemove {d : List (String × QueuedTask)} {k x : String} :
    x ∈ (dictRemove d k).map Prod.fst ↔ x ∈ d.map Prod.fst ∧ x ≠ k := by
  rw [keys_dictRemove, List.mem_filter]
  simp

theorem mem_dictRemove {d : List (String × QueuedTask)} {k : String}
    {p : String × QueuedTask} (h : p ∈ dictRemove d k) : p ∈ d :=
  List.filter_subset' _ h

theorem dictGet?_mem {d : List (String × QueuedTask)} {k : String}
    {v : QueuedTask} (h : dictGet? d k = some v) : (k, v) ∈ d := by
  unfold dictGet? at h
  rcases Option.map_eq_some'.mp h with ⟨p, hp, he⟩
  have hk := List.find?_some hp
  have hm := List.mem_of_find?_eq_some hp
  have : p.1 = k := by simpa using hk
  rw [← he, ← this]
  exact hm

theorem dictGet?_some_contains {d : List (String × QueuedTask)} {k : String}
    {v : QueuedTask} (h : dictGet? d k = some v) : dictContains d k = true :=
  dictContains_iff.mpr (List.mem_map.mpr ⟨(k, v), dictGet?_mem h, rfl⟩)

/-! ### Lemmas about priority insertion -/

theorem insertByPriority_perm (q : List QueuedTask) (t : QueuedTask) :
    List.Perm (insertByPriority q t) (t :: q) := by
  induction q with
  | nil => exact List.Perm.refl _
  | cons x xs ih =>
      unfold insertByPriority
      by_cases h : t.priority > x.priority
      · rw [if_pos h]
      · rw [if_neg h]
        exact (List.Perm.cons x ih).trans (List.Perm.swap t x xs)

theorem mem_insertByPriority {q : List QueuedTask} {t y : QueuedTask} :
    y ∈ insertByPriority q t ↔ y = t ∨ y ∈ q := by
  rw [(insertByPriority_perm q t).mem_iff, List.mem_cons]

theorem length_insertByPriority (q : List QueuedTask) (t : QueuedTask) :
    (insertByPriority q t).length = q.length + 1 := by
  rw [(insertByPriority_perm q t).length_eq, List.length_cons]

theorem pairwise_insertByPriority {q : List QueuedTask} {t : QueuedTask}
    (hq : List.Pairwise queueRel q) (hseq : ∀ x, x ∈ q → x.seq < t.seq) :
    List.Pairwise queueRel (insertByPriority q t) := by
  induction q with
  | nil => simp [insertByPriority]
  | cons x xs ih =>
      rcases List.pairwise_cons.mp hq with ⟨hx, hxs⟩
      unfold insertByPriority
      by_cases h : t.priority > x.priority
      · rw [if_pos h]
        refine List.Pairwise.cons ?_ hq
        intro y hy
        rcases List.mem_cons.mp hy with rfl | hy'
        · exact Or.inl h
        · rcases hx y hy' with h1 | ⟨h2, _⟩
          · exact Or.inl (h1.trans h)
          · exact Or.inl (h2 ▸ h)
      · rw [if_neg h]
        refine List.Pairwise.cons ?_
          (ih hxs (fun y hy => hseq y (List.mem_cons_of_mem _ hy)))
        intro y hy
        rcases mem_insertByPriority.mp hy with rfl | hy'
        · rcases lt_or_eq_of_le (not_lt.mp h) with hlt | heq
          · exact Or.inl hlt
          · exact Or.inr ⟨heq.symm, hseq x (List.mem_cons_self x xs)⟩
        · exact hx y hy'

/-- The insertion loop inserts exactly before the first existing task of
strictly lower priority: everything of priority at least the new task's
is kept in front, the rest follows. -/
theorem insertByPriority_eq_takeWhile_dropWhile (q : List QueuedTask)
    (t : QueuedTask) :
    insertByPriority q t =
      q.takeWhile (fun x => decide (t.priority ≤ x.priority))
        ++ t :: q.dropWhile (fun x => decide (t.priority ≤ x.priority)) := by
  induction q with
  | nil => rfl
  | cons x xs ih =>
      unfold insertByPriority
      by_cases h : t.priority > x.priority
      · rw [if_pos h]
        have hx : ¬ t.priority ≤ x.priority := not_le.mpr h
        simp [List.takeWhile, List.dropWhile, hx]
      · rw [if_neg h]
        have hx : t.priority ≤ x.priority := not_lt.mp h
        simp [List.takeWhile, List.dropWhile, hx]
        exact ih

/-! ### Small list facts -/

theorem map_eraseIdx {α β : Type} (f : α → β) (l : List α) (i : Nat) :
    (l.eraseIdx i).map f = (l.map f).eraseIdx i := by
  induction l generalizing i with
  | nil => simp
  | cons x xs ih =>
      cases i with
      | zero => simp [List.eraseIdx]
      | succ j => simp [List.eraseIdx, ih]

theorem get_not_mem_eraseIdx {l : List String} (hl : l.Nodup) {i : Nat}
    (hi : i < l.length) : l.get ⟨i, hi⟩ ∉ l.eraseIdx i := by
  induction l generalizing i with
  | nil => simp at hi
  | cons x xs ih =>
      rcases List.nodup_cons.mp hl with ⟨hx, hxs⟩
      cases i with
      | zero => simpa [List.eraseIdx] using hx
      | succ j =>
          have hj : j < xs.length := Nat.lt_of_succ_lt_succ hi
          intro hmem
          rcases List.mem_cons.mp hmem with he | hmem'
          · exact hx (he ▸ List.get_mem xs j hj)
          · exact ih hxs hj hmem'

/-! ### Field computations of the operations -/

theorem enqueue_queue (st : TaskQueue) (tt : TaskType) (pr : Int) (tid : String) :
    (st.enqueue tt pr tid).1.queue
      = insertByPriority st.queue (mkQueuedTask tid tt pr st.clock 0 0 "") := rfl

theorem enqueue_running (st : TaskQueue) (tt : TaskType) (pr : Int) (tid : String) :
    (st.enqueue tt pr tid).1.running_tasks = st.running_tasks := rfl

theorem enqueue_inflight (st : TaskQueue) (tt : TaskType) (pr : Int) (tid : String) :
    (st.enqueue tt pr tid).1.inflight = st.inflight := rfl

theorem enqueue_clock (st : TaskQueue) (tt : TaskType) (pr : Int) (tid : String) :
    (st.enqueue tt pr tid).1.clock = st.clock + 1 := rfl

theorem enqueue_events (st : TaskQueue) (tt : TaskType) (pr : Int) (tid : String) :
    (st.enqueue tt pr tid).1.events
      = st.events ++ [Event.task_queued tid tt
          (TASK_RESOURCE_REQUIREMENTS tt).cpu_cores
          (TASK_RESOURCE_REQUIREMENTS tt).ram_gb
          (insertByPriority st.queue (mkQueuedTask tid tt pr st.clock 0 0 "")).length
          ""] := rfl

theorem register_queue (st : TaskQueue) (tt : TaskType) (tid : String) :
    (st.register_running_task tt tid).1.queue = st.queue := rfl

theorem register_running (st : TaskQueue) (tt : TaskType) (tid : String) :
    (st.register_running_task tt tid).1.running_tasks
      = dictInsert st.running_tasks tid (mkQueuedTask tid tt 0 st.clock 0 0 "") := rfl

theorem register_inflight (st : TaskQueue) (tt : TaskType) (tid : String) :
    (st.register_running_task tt tid).1.inflight
      = st.inflight ++ [mkQueuedTask tid tt 0 st.clock 0 0 ""] := rfl

theorem register_clock (st : TaskQueue) (tt : TaskType) (tid : String) :
    (st.register_running_task tt tid).1.clock = st.clock + 1 := rfl

theorem tryNext_nil {m : ResourceMonitor} {res : SystemResources} {st : TaskQueue}
    (h : st.queue = []) : TaskQueue.try_execute_next m res st = (none, st) := by
  unfold TaskQueue.try_execute_next
  rw [h]

theorem tryNext_reject {m : ResourceMonitor} {res : SystemResources} {st : TaskQueue}
    {x : QueuedTask} {xs : List QueuedTask} (h : st.queue = x :: xs)
    (hcan : (m.can_run_task res x.task_type none).1 = false) :
    TaskQueue.try_execute_next m res st = (none, st) := by
  unfold TaskQueue.try_execute_next
  rw [h]
  simp [hcan]

theorem tryNext_admitted {m : ResourceMonitor} {res : SystemResources} {st : TaskQueue}
    {x : QueuedTask} {xs : List QueuedTask} (h : st.queue = x :: xs)
    (hcan : (m.can_run_task res x.task_type none).1 = true) :
    TaskQueue.try_execute_next m res st =
      (some x.task_id,
        ⟨xs, dictInsert st.running_tasks x.task_id x, st.subscribers,
          st.inflight ++ [x], st.events, st.clock⟩) := by
  unfold TaskQueue.try_execute_next
  rw [h]
  simp [hcan]

theorem finishAt_oob {st : TaskQueue} {i : Nat} {outcome : Except String Unit}
    (h : st.inflight.get? i = none) : st.finishAt i outcome = st := by
  unfold TaskQueue.finishAt
  rw [h]

theorem finishAt_some {st : TaskQueue} {i : Nat} {task : QueuedTask}
    {outcome : Except String Unit} (h : st.inflight.get? i = some task) :
    st.finishAt i outcome =
      TaskQueue.execute_task_finish
        ⟨st.queue, st.running_tasks, st.subscribers, st.inflight.eraseIdx i,
          st.events, st.clock⟩ task outcome := by
  unfold TaskQueue.finishAt
  rw [h]

theorem execute_task_finish_present {st : TaskQueue} {task : QueuedTask}
    {outcome : Except String Unit}
    (h : dictContains st.running_tasks task.task_id = true) :
    TaskQueue.execute_task_finish st task outcome =
      TaskQueue.emit_event
        ⟨st.queue, dictRemove st.running_tasks task.task_id, st.subscribers,
          st.inflight, st.events, st.clock⟩
        (.task_completed task.task_id task.task_type (successOf outcome)) := by
  unfold TaskQueue.execute_task_finish
  rw [h]
  simp

theorem execute_task_finish_absent {st : TaskQueue} {task : QueuedTask}
    {outcome : Except String Unit}
    (h : dictContains st.running_tasks task.task_id = false) :
    TaskQueue.execute_task_finish st task outcome = st := by
  unfold TaskQueue.execute_task_finish
  rw [h]
  simp

theorem update_none {st : TaskQueue} {tid d : String}
    (h : dictGet? st.running_tasks tid = none) :
    st.update_task_description tid d = st := by
  unfold TaskQueue.update_task_description
  rw [h]

theorem update_some {st : TaskQueue} {tid d : String} {task : QueuedTask}
    (h : dictGet? st.running_tasks tid = some task) :
    st.update_task_description tid d =
      TaskQueue.emit_event
        ⟨st.queue, dictInsert st.running_tasks tid (task.withDescription d),
          st.subscribers, st.inflight, st.events, st.clock⟩
        (.task_description_update tid task.task_type d) := by
  unfold TaskQueue.update_task_description
  rw [h]

/-! ### Preservation of the structural invariant -/

theorem queuedIds_enqueue_perm (st : TaskQueue) (tt : TaskType) (pr : Int)
    (tid : String) :
    List.Perm (queuedIds (st.enqueue tt pr tid).1) (tid :: queuedIds st) := by
  show List.Perm
    ((insertByPriority st.queue (mkQueuedTask tid tt pr st.clock 0 0 "")).map
      QueuedTask.task_id)
    (tid :: queuedIds st)
  exact (insertByPriority_perm _ _).map QueuedTask.task_id

theorem dictContains_false_of_not_mem {d : List (String × QueuedTask)} {k : String}
    (h : k ∉ d.map Prod.fst) : dictContains d k = false := by
  cases hc : dictContains d k
  · rfl
  · exact absurd (dictContains_iff.mp hc) h

theorem Inv_enqueue {st : TaskQueue} (hi : Inv st) (tt : TaskType) (pr : Int)
    {tid : String} (hf : tid ∉ allTaskIds st) : Inv (st.enqueue tt pr tid).1 := by
  have hq : tid ∉ queuedIds st := fun h => hf (List.mem_append.mpr (Or.inl h))
  have hr : tid ∉ runningIds st := fun h => hf (List.mem_append.mpr (Or.inr h))
  have hperm := queuedIds_enqueue_perm st tt pr tid
  have hrun : runningIds (st.enqueue tt pr tid).1 = runningIds st := rfl
  have hinf : inflightIds (st.enqueue tt pr tid).1 = inflightIds st := rfl
  refine ⟨?_, ?_, ?_, ?_, ?_, ?_⟩
  · exact hperm.nodup_iff.mpr (List.nodup_cons.mpr ⟨hq, hi.nodup_q⟩)
  · rw [hrun]
    exact hi.nodup_r
  · intro t ht
    rw [hrun]
    rcases List.mem_cons.mp (hperm.mem_iff.mp ht) with rfl | ht'
    · exact hr
    · exact hi.disj t ht'
  · rw [hinf]
    exact hi.nodup_f
  · intro t ht
    rw [hinf] at ht
    rw [hrun]
    exact hi.fsub t ht
  · intro p hp
    rw [enqueue_running] at hp
    exact hi.keyed p hp

theorem Inv_register {st : TaskQueue} (hi : Inv st) (tt : TaskType)
    {tid : String} (hf : tid ∉ allTaskIds st) :
    Inv (st.register_running_task tt tid).1 := by
  have hq : tid ∉ queuedIds st := fun h => hf (List.mem_append.mpr (Or.inl h))
  have hr : tid ∉ runningIds st := fun h => hf (List.mem_append.mpr (Or.inr h))
  have hcont : dictContains st.running_tasks tid = false :=
    dictContains_false_of_not_mem hr
  have hkeys : runningIds (st.register_running_task tt tid).1
      = runningIds st ++ [tid] := by
    show (dictInsert st.running_tasks tid _).map Prod.fst = runningIds st ++ [tid]
    rw [keys_dictInsert, hcont]
    simp [runningIds]
  have hqids : queuedIds (st.register_running_task tt tid).1 = queuedIds st := rfl
  have hinf : inflightIds (st.register_running_task tt tid).1
      = inflightIds st ++ [tid] := by
    show (st.inflight ++ [mkQueuedTask tid tt 0 st.clock 0 0 ""]).map
      QueuedTask.task_id = inflightIds st ++ [tid]
    rw [List.map_append]
    rfl
  have hfi : tid ∉ inflightIds st := fun h => hr (hi.fsub tid h)
  refine ⟨?_, ?_, ?_, ?_, ?_, ?_⟩
  · rw [hqids]
    exact hi.nodup_q
  · rw [hkeys]
    exact (List.perm_append_singleton tid (runningIds st)).nodup_iff.mpr
      (List.nodup_cons.mpr ⟨hr, hi.nodup_r⟩)
  · intro t ht
    rw [hqids] at ht
    rw [hkeys]
    intro hmem
    rcases List.mem_append.mp hmem with hm | hm
    · exact hi.disj t ht hm
    · rw [List.mem_singleton] at hm
      exact hq (hm ▸ ht)
  · rw [hinf]
    exact (List.perm_append_singleton tid (inflightIds st)).nodup_iff.mpr
      (List.nodup_cons.mpr ⟨hfi, hi.nodup_f⟩)
  · intro t ht
    rw [hinf] at ht
    rw [hkeys]
    rcases List.mem_append.mp ht with hm | hm
    · exact List.mem_append.mpr (Or.inl (hi.fsub t hm))
    · exact List.mem_append.mpr (Or.inr hm)
  · intro p hp
    rw [register_running] at hp
    rcases mem_dictInsert hp with rfl | hp'
    · rfl
    · exact hi.keyed p hp'

theorem Inv_tryNext {m : ResourceMonitor} {res : SystemResources} {st : TaskQueue}
    (hi : Inv st) : Inv (TaskQueue.try_execute_next m res st).2 := by
  cases hq : st.queue with
  | nil =>
      rw [tryNext_nil hq]
      exact hi
  | cons x xs =>
      cases hcan : (m.can_run_task res x.task_type none).1 with
      | false =>
          rw [tryNext_reject hq hcan]
          exact hi
      | true =>
          rw [tryNext_admitted hq hcan]
          have hqids : queuedIds st = x.task_id :: xs.map QueuedTask.task_id := by
            rw [queuedIds, hq]
            rfl
          have hxq : x.task_id ∈ queuedIds st := by
            rw [hqids]
            exact List.mem_cons_self _ _
          have hxr : x.task_id ∉ runningIds st := hi.disj _ hxq
          have hcont : dictContains st.running_tasks x.task_id = false :=
            dictContains_false_of_not_mem hxr
          have hnq := hi.nodup_q
          rw [hqids] at hnq
          rcases List.nodup_cons.mp hnq with ⟨hxnotin, hnodxs⟩
          have hkeys : (dictInsert st.running_tasks x.task_id x).map Prod.fst
              = runningIds st ++ [x.task_id] := by
            rw [keys_dictInsert, hcont]
            simp [runningIds]
          have hfx : x.task_id ∉ inflightIds st := fun h => hxr (hi.fsub _ h)
          refine ⟨?_, ?_, ?_, ?_, ?_, ?_⟩
          · exact hnodxs
          · show ((dictInsert st.running_tasks x.task_id x).map Prod.fst).Nodup
            rw [hkeys]
            exact (List.perm_append_singleton _ _).nodup_iff.mpr
              (List.nodup_cons.mpr ⟨hxr, hi.nodup_r⟩)
          · intro t ht
            show t ∉ (dictInsert st.running_tasks x.task_id x).map Prod.fst
            rw [hkeys]
            intro hmem
            rcases List.mem_append.mp hmem with hm | hm
            · exact hi.disj t (by rw [hqids]; exact List.mem_cons_of_mem _ ht) hm
            · rw [List.mem_singleton] at hm
              exact hxnotin (hm ▸ ht)
          · show ((st.inflight ++ [x]).map QueuedTask.task_id).Nodup
            rw [List.map_append]
            exact (List.perm_append_singleton _ _).nodup_iff.mpr
              (List.nodup_cons.mpr ⟨hfx, hi.nodup_f⟩)
          · intro t ht
            show t ∈ (dictInsert st.running_tasks x.task_id x).map Prod.fst
            rw [hkeys]
            have ht' : t ∈ (st.inflight).map QueuedTask.task_id ++ [x.task_id] := by
              simpa [inflightIds, List.map_append] using ht
            rcases List.mem_append.mp ht' with hm | hm
            · exact List.mem_append.mpr (Or.inl (hi.fsub t hm))
            · exact List.mem_append.mpr (Or.inr hm)
          · intro p hp
            rcases mem_dictInsert hp with rfl | hp'
            · rfl
            · exact hi.keyed p hp'

theorem inflightIds_eraseIdx (st : TaskQueue) (i : Nat) :
    (st.inflight.eraseIdx i).map QueuedTask.task_id = (inflightIds st).eraseIdx i :=
  map_eraseIdx QueuedTask.task_id st.inflight i

theorem inflightIds_get? {st : TaskQueue} {i : Nat} {task : QueuedTask}
    (h : st.inflight.get? i = some task) :
    (inflightIds st).get? i = some task.task_id := by
  rw [inflightIds, List.get?_map, h]
  rfl

theorem Inv_finish {st : TaskQueue} {i : Nat} {outcome : Except String Unit}
    (hi : Inv st) : Inv (st.finishAt i outcome) := by
  cases hget : st.inflight.get? i with
  | none =>
      rw [finishAt_oob hget]
      exact hi
  | some task =>
      rw [finishAt_some hget]
      have hgid := inflightIds_get? hget
      rcases List.get?_eq_some.mp hgid with ⟨hlen, hgeteq⟩
      have hnotin : task.task_id ∉ (inflightIds st).eraseIdx i := by
        rw [← hgeteq]
        exact get_not_mem_eraseIdx hi.nodup_f hlen
      have hsub : (inflightIds st).eraseIdx i ⊆ inflightIds st :=
        (List.eraseIdx_sublist (inflightIds st) i).subset
      have hnodf : ((st.inflight.eraseIdx i).map QueuedTask.task_id).Nodup := by
        rw [inflightIds_eraseIdx]
        exact (List.eraseIdx_sublist (inflightIds st) i).nodup hi.nodup_f
      cases hcont : dictContains st.running_tasks task.task_id with
      | false =>
          have hcont2 : dictContains
              (⟨st.queue, st.running_tasks, st.subscribers, st.inflight.eraseIdx i,
                st.events, st.clock⟩ : TaskQueue).running_tasks task.task_id = false :=
            hcont
          rw [execute_task_finish_absent hcont2]
          refine ⟨hi.nodup_q, hi.nodup_r, hi.disj, hnodf, ?_, hi.keyed⟩
          intro t ht
          have ht2 : t ∈ (st.inflight.eraseIdx i).map QueuedTask.task_id := ht
          rw [inflightIds_eraseIdx] at ht2
          exact hi.fsub t (hsub ht2)
      | true =>
          have hcont2 : dictContains
              (⟨st.queue, st.running_tasks, st.subscribers, st.inflight.eraseIdx i,
                st.events, st.clock⟩ : TaskQueue).running_tasks task.task_id = true :=
            hcont
          rw [execute_task_finish_present hcont2]
          refine ⟨hi.nodup_q, ?_, ?_, hnodf, ?_, ?_⟩
          · show ((dictRemove st.running_tasks task.task_id).map Prod.fst).Nodup
            rw [keys_dictRemove]
            exact hi.nodup_r.filter _
          · intro t ht
            show t ∉ (dictRemove st.running_tasks task.task_id).map Prod.fst
            intro hmem
            exact hi.disj t ht (mem_keys_dictRemove.mp hmem).1
          · intro t ht
            show t ∈ (dictRemove st.running_tasks task.task_id).map Prod.fst
            have ht2 : t ∈ (st.inflight.eraseIdx i).map QueuedTask.task_id := ht
            rw [inflightIds_eraseIdx] at ht2
            refine mem_keys_dictRemove.mpr ⟨hi.fsub t (hsub ht2), ?_⟩
            intro he
            exact hnotin (he ▸ ht2)
          · intro p hp
            exact hi.keyed p (mem_dictRemove hp)

theorem Inv_update {st : TaskQueue} {tid d : String} (hi : Inv st) :
    Inv (st.update_task_description tid d) := by
  cases hget : dictGet? st.running_tasks tid with
  | none =>
      rw [update_none hget]
      exact hi
  | some task =>
      rw [update_some hget]
      have hcont := dictGet?_some_contains hget
      have htid : task.task_id = tid := hi.keyed (tid, task) (dictGet?_mem hget)
      have hkeys : (dictInsert st.running_tasks tid (task.withDescription d)).map
          Prod.fst = runningIds st := by
        rw [keys_dictInsert, hcont]
        rfl
      refine ⟨hi.nodup_q, ?_, ?_, hi.nodup_f, ?_, ?_⟩
      · show ((dictInsert st.running_tasks tid (task.withDescription d)).map
          Prod.fst).Nodup
        rw [hkeys]
        exact hi.nodup_r
      · intro t ht
        show t ∉ (dictInsert st.running_tasks tid (task.withDescription d)).map
          Prod.fst
        rw [hkeys]
        exact hi.disj t ht
      · intro t ht
        show t ∈ (dictInsert st.running_tasks tid (task.withDescription d)).map
          Prod.fst
        rw [hkeys]
        exact hi.fsub t ht
      · intro p hp
        rcases mem_dictInsert hp with rfl | hp'
        · exact htid
        · exact hi.keyed p hp'

theorem Inv_init : Inv initState := by
  refine ⟨?_, ?_, ?_, ?_, ?_, ?_⟩ <;> simp [initState, queuedIds, runningIds, inflightIds]

theorem Inv_step {m : ResourceMonitor} {st st' : TaskQueue}
    (h : Step m true st st') (hi : Inv st) : Inv st' := by
  cases h with
  | enqueue tt pr tid hfresh => exact Inv_enqueue hi tt pr (hfresh rfl)
  | tryNext res => exact Inv_tryNext hi
  | register tt tid hfresh => exact Inv_register hi tt (hfresh rfl)
  | finish i outcome hlt => exact Inv_finish hi
  | updateDescription tid d => exact Inv_update hi
  | subscribe => exact ⟨hi.nodup_q, hi.nodup_r, hi.disj, hi.nodup_f, hi.fsub, hi.keyed⟩
  | unsubscribe i => exact ⟨hi.nodup_q, hi.nodup_r, hi.disj, hi.nodup_f, hi.fsub, hi.keyed⟩

theorem Inv_reachable {m : ResourceMonitor} {st : TaskQueue}
    (h : Reachable m true st) : Inv st := by
  induction h with
  | refl => exact Inv_init
  | tail _ hstep ih => exact Inv_step hstep ih

/-! ### Preservation of the ordering and footprint invariants -/

theorem execute_task_finish_queue (st : TaskQueue) (task : QueuedTask)
    (outcome : Except String Unit) :
    (TaskQueue.execute_task_finish st task outcome).queue = st.queue := by
  unfold TaskQueue.execute_task_finish
  split <;> rfl

theorem execute_task_finish_clock (st : TaskQueue) (task : QueuedTask)
    (outcome : Except String Unit) :
    (TaskQueue.execute_task_finish st task outcome).clock = st.clock := by
  unfold TaskQueue.execute_task_finish
  split <;> rfl

theorem finishAt_queue (st : TaskQueue) (i : Nat) (outcome : Except String Unit) :
    (st.finishAt i outcome).queue = st.queue := by
  unfold TaskQueue.finishAt
  cases st.inflight.get? i with
  | none => rfl
  | some task => exact execute_task_finish_queue _ task outcome

theorem finishAt_clock (st : TaskQueue) (i : Nat) (outcome : Except String Unit) :
    (st.finishAt i outcome).clock = st.clock := by
  unfold TaskQueue.finishAt
  cases st.inflight.get? i with
  | none => rfl
  | some task => exact execute_task_finish_clock _ task outcome

theorem update_queue (st : TaskQueue) (tid d : String) :
    (st.update_task_description tid d).queue = st.queue := by
  unfold TaskQueue.update_task_description
  cases dictGet? st.running_tasks tid with
  | none => rfl
  | some task => rfl

theorem update_clock (st : TaskQueue) (tid d : String) :
    (st.update_task_description tid d).clock = st.clock := by
  unfold TaskQueue.update_task_description
  cases dictGet? st.running_tasks tid with
  | none => rfl
  | some task => rfl

theorem SortInv_step {m : ResourceMonitor} {fresh : Bool} {st st' : TaskQueue}
    (h : Step m fresh st st') (hs : SortInv st) : SortInv st' := by
  cases h with
  | enqueue tt pr tid hfresh =>
      constructor
      · show List.Pairwise queueRel
          (insertByPriority st.queue (mkQueuedTask tid tt pr st.clock 0 0 ""))
        exact pairwise_insertByPriority hs.1 (fun x hx => hs.2 x hx)
      · intro t ht
        show t.seq < st.clock + 1
        have ht2 : t ∈ insertByPriority st.queue
            (mkQueuedTask tid tt pr st.clock 0 0 "") := ht
        rcases mem_insertByPriority.mp ht2 with rfl | ht3
        · exact Nat.lt_succ_self _
        · exact Nat.lt_succ_of_lt (hs.2 t ht3)
  | tryNext res =>
      cases hq : st.queue with
      | nil =>
          rw [tryNext_nil hq]
          exact hs
      | cons x xs =>
          cases hcan : (m.can_run_task res x.task_type none).1 with
          | false =>
              rw [tryNext_reject hq hcan]
              exact hs
          | true =>
              rw [tryNext_admitted hq hcan]
              constructor
              · show List.Pairwise queueRel xs
                have hp := hs.1
                rw [hq] at hp
                exact (List.pairwise_cons.mp hp).2
              · intro t ht
                have ht2 : t ∈ st.queue := by
                  rw [hq]
                  exact List.mem_cons_of_mem _ ht
                exact hs.2 t ht2
  | register tt tid hfresh =>
      refine ⟨hs.1, ?_⟩
      intro t ht
      exact Nat.lt_succ_of_lt (hs.2 t ht)
  | finish i outcome hlt =>
      refine ⟨?_, ?_⟩
      · rw [finishAt_queue]
        exact hs.1
      · intro t ht
        rw [finishAt_queue] at ht
        rw [finishAt_clock]
        exact hs.2 t ht
  | updateDescription tid d =>
      refine ⟨?_, ?_⟩
      · rw [update_queue]
        exact hs.1
      · intro t ht
        rw [update_queue] at ht
        rw [update_clock]
        exact hs.2 t ht
  | subscribe => exact hs
  | unsubscribe i => exact hs

theorem SortInv_init : SortInv initState := by
  refine ⟨List.Pairwise.nil, ?_⟩
  intro t ht
  simp [initState] at ht

theorem SortInv_reachable {m : ResourceMonitor} {fresh : Bool} {st : TaskQueue}
    (h : Reachable m fresh st) : SortInv st := by
  induction h with
  | refl => exact SortInv_init
  | tail _ hstep ih => exact SortInv_step hstep ih

theorem estOk_mk (tid : String) (tt : TaskType) (pr : Int) (seq : Nat)
    (c r : ℚ) (d : String) : estOk (mkQueuedTask tid tt pr seq c r d) := ⟨rfl, rfl⟩

theorem EstInv_step {m : ResourceMonitor} {fresh : Bool} {st st' : TaskQueue}
    (h : Step m fresh st st') (he : EstInv st) : EstInv st' := by
  cases h with
  | enqueue tt pr tid hfresh =>
      refine ⟨?_, ?_, ?_⟩
      · intro t ht
        have ht2 : t ∈ insertByPriority st.queue
            (mkQueuedTask tid tt pr st.clock 0 0 "") := ht
        rcases mem_insertByPriority.mp ht2 with rfl | ht3
        · exact estOk_mk _ _ _ _ _ _ _
        · exact he.1 t ht3
      · intro p hp
        exact he.2.1 p hp
      · intro t ht
        exact he.2.2 t ht
  | tryNext res =>
      cases hq : st.queue with
      | nil =>
          rw [tryNext_nil hq]
          exact he
      | cons x xs =>
          cases hcan : (m.can_run_task res x.task_type none).1 with
          | false =>
              rw [tryNext_reject hq hcan]
              exact he
          | true =>
              rw [tryNext_admitted hq hcan]
              have hx : estOk x := he.1 x (by rw [hq]; exact List.mem_cons_self _ _)
              refine ⟨?_, ?_, ?_⟩
              · intro t ht
                exact he.1 t (by rw [hq]; exact List.mem_cons_of_mem _ ht)
              · intro p hp
                rcases mem_dictInsert hp with rfl | hp'
                · exact hx
                · exact he.2.1 p hp'
              · intro t ht
                rcases List.mem_append.mp ht with hm | hm
                · exact he.2.2 t hm
                · rw [List.mem_singleton] at hm
                  exact hm ▸ hx
  | register tt tid hfresh =>
      refine ⟨?_, ?_, ?_⟩
      · intro t ht
        exact he.1 t ht
      · intro p hp
        rcases mem_dictInsert hp with rfl | hp'
        · exact estOk_mk tid tt 0 st.clock 0 0 ""
        · exact he.2.1 p hp'
      · intro t ht
        rcases List.mem_append.mp ht with hm | hm
        · exact he.2.2 t hm
        · rw [List.mem_singleton] at hm
          exact hm ▸ estOk_mk tid tt 0 st.clock 0 0 ""
  | finish i outcome hlt =>
      cases hget : st.inflight.get? i with
      | none =>
          rw [finishAt_oob hget]
          exact he
      | some task =>
          rw [finishAt_some hget]
          have hsub : st.inflight.eraseIdx i ⊆ st.inflight :=
            (List.eraseIdx_sublist st.inflight i).subset
          cases hcont : dictContains st.running_tasks task.task_id with
          | false =>
              have hcont2 : dictContains
                  (⟨st.queue, st.running_tasks, st.subscribers,
                    st.inflight.eraseIdx i, st.events, st.clock⟩ :
                      TaskQueue).running_tasks task.task_id = false := hcont
              rw [execute_task_finish_absent hcont2]
              exact ⟨he.1, he.2.1, fun t ht => he.2.2 t (hsub ht)⟩
          | true =>
              have hcont2 : dictContains
                  (⟨st.queue, st.running_tasks, st.subscribers,
                    st.inflight.eraseIdx i, st.events, st.clock⟩ :
                      TaskQueue).running_tasks task.task_id = true := hcont
              rw [execute_task_finish_present hcont2]
              refine ⟨he.1, ?_, fun t ht => he.2.2 t (hsub ht)⟩
              intro p hp
              exact he.2.1 p (mem_dictRemove hp)
  | updateDescription tid d =>
      cases hget : dictGet? st.running_tasks tid with
      | none =>
          rw [update_none hget]
          exact he
      | some task =>
          rw [update_some hget]
          have htask : estOk task := he.2.1 (tid, task) (dictGet?_mem hget)
          refine ⟨he.1, ?_, he.2.2⟩
          intro p hp
          rcases mem_dictInsert hp with rfl | hp'
          · exact htask
          · exact he.2.1 p hp'
  | subscribe => exact he
  | unsubscribe i => exact he

theorem EstInv_init : EstInv initState := by
  refine ⟨?_, ?_, ?_⟩ <;> intro t ht <;> simp [initState] at ht

theorem EstInv_reachable {m : ResourceMonitor} {fresh : Bool} {st : TaskQueue}
    (h : Reachable m fresh st) : EstInv st := by
  induction h with
  | refl => exact EstInv_init
  | tail _ hstep ih => exact EstInv_step hstep ih

/-! ### Bridging the status snapshot to the state -/

theorem status_queued_ids (st : TaskQueue) :
    st.get_queue_status.queued_tasks.map QueuedTaskStatus.task_id = queuedIds st := by
  show (st.queue.enum.map (fun p =>
      (⟨p.2.task_id, p.2.task_type, p.2.priority, p.2.estimated_cpu_cores,
        p.2.estimated_ram_gb, p.1 + 1, p.2.description⟩ : QueuedTaskStatus))).map
      QueuedTaskStatus.task_id = st.queue.map QueuedTask.task_id
  rw [List.map_map]
  have h2 : (QueuedTaskStatus.task_id ∘ fun p : Nat × QueuedTask =>
      (⟨p.2.task_id, p.2.task_type, p.2.priority, p.2.estimated_cpu_cores,
        p.2.estimated_ram_gb, p.1 + 1, p.2.description⟩ : QueuedTaskStatus))
      = (QueuedTask.task_id ∘ Prod.snd) := rfl
  rw [h2, ← List.map_map, List.enum_map_snd]

theorem status_running_ids {st : TaskQueue}
    (hk : ∀ p, p ∈ st.running_tasks → p.2.task_id = p.1) :
    st.get_queue_status.running_tasks.map RunningTaskStatus.task_id = runningIds st := by
  show (st.running_tasks.map (fun p =>
      (⟨p.2.task_id, p.2.task_type, p.2.estimated_cpu_cores,
        p.2.estimated_ram_gb, p.2.description⟩ : RunningTaskStatus))).map
      RunningTaskStatus.task_id = st.running_tasks.map Prod.fst
  rw [List.map_map]
  refine List.map_congr_left ?_
  intro p hp
  exact hk p hp

/-! ### Case analysis of the admission check -/

theorem can_run_task_cases (m : ResourceMonitor) (res : SystemResources)
    (tt : TaskType) (cf : Option ℚ) :
    (¬ (res.available_cpu_cores
          - (TASK_RESOURCE_REQUIREMENTS tt).cpu_cores * cf.getD m.consumption_factor
        ≥ m.min_cpu_cores) →
      m.can_run_task res tt cf = (false, .insufficientCPU
        ((TASK_RESOURCE_REQUIREMENTS tt).cpu_cores * cf.getD m.consumption_factor)
        res.available_cpu_cores
        (res.available_cpu_cores
          - (TASK_RESOURCE_REQUIREMENTS tt).cpu_cores * cf.getD m.consumption_factor)
        m.min_cpu_cores)) ∧
    ((res.available_cpu_cores
          - (TASK_RESOURCE_REQUIREMENTS tt).cpu_cores * cf.getD m.consumption_factor
        ≥ m.min_cpu_cores) →
      ¬ (res.available_ram_gb
          - (TASK_RESOURCE_REQUIREMENTS tt).ram_gb * cf.getD m.consumption_factor
        ≥ m.min_ram_gb) →
      m.can_run_task res tt cf = (false, .insufficientRAM
        ((TASK_RESOURCE_REQUIREMENTS tt).ram_gb * cf.getD m.consumption_factor)
        res.available_ram_gb
        (res.available_ram_gb
          - (TASK_RESOURCE_REQUIREMENTS tt).ram_gb * cf.getD m.consumption_factor)
        m.min_ram_gb)) ∧
    ((res.available_cpu_cores
          - (TASK_RESOURCE_REQUIREMENTS tt).cpu_cores * cf.getD m.consumption_factor
        ≥ m.min_cpu_cores) →
      (res.available_ram_gb
          - (TASK_RESOURCE_REQUIREMENTS tt).ram_gb * cf.getD m.consumption_factor
        ≥ m.min_ram_gb) →
      m.can_run_task res tt cf = (true, .canRun
        (res.available_cpu_cores
          - (TASK_RESOURCE_REQUIREMENTS tt).cpu_cores * cf.getD m.consumption_factor)
        (res.available_ram_gb
          - (TASK_RESOURCE_REQUIREMENTS tt).ram_gb * cf.getD m.consumption_factor))) := by
  refine ⟨?_, ?_, ?_⟩
  · intro h1
    simp [ResourceMonitor.can_run_task, h1]
  · intro h1 h2
    simp [ResourceMonitor.can_run_task, h1, h2]
  · intro h1 h2
    simp [ResourceMonitor.can_run_task, h1, h2]

theorem can_run_task_fst_iff (m : ResourceMonitor) (res : SystemResources)
    (tt : TaskType) (cf : Option ℚ) :
    (m.can_run_task res tt cf).1 = true ↔
      (m.min_cpu_cores ≤ res.available_cpu_cores
          - (TASK_RESOURCE_REQUIREMENTS tt).cpu_cores * cf.getD m.consumption_factor ∧
        m.min_ram_gb ≤ res.available_ram_gb
          - (TASK_RESOURCE_REQUIREMENTS tt).ram_gb * cf.getD m.consumption_factor) := by
  rcases can_run_task_cases m res tt cf with ⟨hc, hr, hok⟩
  by_cases h1 : res.available_cpu_cores
      - (TASK_RESOURCE_REQUIREMENTS tt).cpu_cores * cf.getD m.consumption_factor
      ≥ m.min_cpu_cores
  · by_cases h2 : res.available_ram_gb
        - (TASK_RESOURCE_REQUIREMENTS tt).ram_gb * cf.getD m.consumption_factor
        ≥ m.min_ram_gb
    · rw [hok h1 h2]
      simpa using ⟨h1, h2⟩
    · rw [hr h1 h2]
      simpa using fun _ => h2
  · rw [hc h1]
    simpa using fun h => absurd h h1

/-! ### Claim C1 -/

/-- Claim C1 counterexample: the mutual-exclusivity claim is false as
stated.  `enqueue` never inspects a caller-supplied `task_id`, so
enqueueing the id "a" twice produces a reachable state whose
`get_queue_status` snapshot lists "a" twice among the queued tasks. -/
theorem claim_C1_counterexample :
    Reachable prodMonitor false dupEnqueueScenario ∧
    (dupEnqueueScenario.get_queue_status.queued_tasks.map
      QueuedTaskStatus.task_id).count "a" = 2 := by
  constructor
  · exact Relation.ReflTransGen.tail
      (Relation.ReflTransGen.single
        (Step.enqueue initState .BACKTEST 0 "a" (by simp)))
      (Step.enqueue (initState.enqueue .BACKTEST 0 "a").1 .BACKTEST 0 "a" (by simp))
  · decide

/-- Claim C1 (amended): provided every caller-supplied task id is fresh at
call time — not already pending or running, as uuid4-generated ids are —
every reachable `get_queue_status` snapshot shows any given id at most
once across the queued and running lists together: never duplicated
within either collection and never in both. -/
theorem claim_C1_amended (m : ResourceMonitor) (st : TaskQueue)
    (h : Reachable m true st) (tid : String) :
    (st.get_queue_status.queued_tasks.map QueuedTaskStatus.task_id).count tid
      + (st.get_queue_status.running_tasks.map RunningTaskStatus.task_id).count tid
      ≤ 1 := by
  have hi := Inv_reachable h
  rw [status_queued_ids, status_running_ids hi.keyed]
  by_cases hq : tid ∈ queuedIds st
  · have hr0 : (runningIds st).count tid = 0 :=
      List.count_eq_zero.mpr (hi.disj tid hq)
    have h1 : (queuedIds st).count tid ≤ 1 :=
      List.nodup_iff_count_le_one.mp hi.nodup_q tid
    omega
  · have hq0 : (queuedIds st).count tid = 0 := List.count_eq_zero.mpr hq
    have h2 : (runningIds st).count tid ≤ 1 :=
      List.nodup_iff_count_le_one.mp hi.nodup_r tid
    omega

/-- Witness for the amended C1 theorem: a concrete one-step fresh trace. -/
theorem claim_C1_witness :
    (oneRegScenario.get_queue_status.queued_tasks.map
        QueuedTaskStatus.task_id).count "a"
      + (oneRegScenario.get_queue_status.running_tasks.map
        RunningTaskStatus.task_id).count "a" ≤ 1 :=
  claim_C1_amended prodMonitor oneRegScenario
    (Relation.ReflTransGen.single
      (Step.register initState .BACKTEST "a" (fun _ => by decide))) "a"

/-! ### Claim C2 -/

/-- Claim C2 counterexample: with a reused id, a dispatched wrapper can
emit no `task_completed` event at all.  After registering the id "a"
twice and letting the first wrapper finish, a wrapper for "a" is still in
flight, yet its completion leaves the event log unchanged — so the
claimed "exactly one completion event per dispatched task" fails. -/
theorem claim_C2_counterexample :
    Reachable prodMonitor false dupRegScenario ∧
    0 < dupRegScenario.inflight.length ∧
    (dupRegScenario.finishAt 0 (.ok ())).events = dupRegScenario.events := by
  refine ⟨?_, by with_unfolding_all decide, by with_unfolding_all decide⟩
  exact Relation.ReflTransGen.tail
    (Relation.ReflTransGen.tail
      (Relation.ReflTransGen.single
        (Step.register initState .BACKTEST "a" (by simp)))
      (Step.register (initState.register_running_task .BACKTEST "a").1
        .BACKTEST "a" (by simp)))
    (Step.finish
      ((initState.register_running_task .BACKTEST "a").1.register_running_task
        .BACKTEST "a").1 0 (.ok ()) (by decide))

/-- Claim C2 (amended): under fresh ids, the completion of any dispatched
wrapper runs without propagating the task's error, removes the task's id
from the running set, appends exactly one `task_completed` event carrying
that id with `success` true iff the work returned normally, and consumes
the wrapper so it can never emit again. -/
theorem claim_C2_amended (m : ResourceMonitor) (st : TaskQueue)
    (h : Reachable m true st) (i : Nat) (task : QueuedTask)
    (hget : st.inflight.get? i = some task) (outcome : Except String Unit) :
    (st.finishAt i outcome).events
      = st.events
        ++ [Event.task_completed task.task_id task.task_type (successOf outcome)] ∧
    task.task_id ∉ runningIds (st.finishAt i outcome) ∧
    (st.finishAt i outcome).inflight = st.inflight.eraseIdx i := by
  have hi := Inv_reachable h
  have htask : task ∈ st.inflight := List.get?_mem hget
  have hmem : task.task_id ∈ inflightIds st :=
    List.mem_map.mpr ⟨task, htask, rfl⟩
  have hrun : task.task_id ∈ runningIds st := hi.fsub _ hmem
  have hcont : dictContains st.running_tasks task.task_id = true :=
    dictContains_iff.mpr hrun
  rw [finishAt_some hget]
  have hcont2 : dictContains
      (⟨st.queue, st.running_tasks, st.subscribers, st.inflight.eraseIdx i,
        st.events, st.clock⟩ : TaskQueue).running_tasks task.task_id = true := hcont
  rw [execute_task_finish_present hcont2]
  refine ⟨rfl, ?_, rfl⟩
  show task.task_id ∉ (dictRemove st.running_tasks task.task_id).map Prod.fst
  intro hmem2
  exact (mem_keys_dictRemove.mp hmem2).2 rfl

/-- Witness for the amended C2 theorem: one registered task whose work
raises; the wrapper emits one failure event and clears the running set. -/
theorem claim_C2_witness :
    (oneRegScenario.finishAt 0 (.error "boom")).events
      = oneRegScenario.events ++ [Event.task_completed "a" .BACKTEST false] ∧
    "a" ∉ runningIds (oneRegScenario.finishAt 0 (.error "boom")) ∧
    (oneRegScenario.finishAt 0 (.error "boom")).inflight
      = oneRegScenario.inflight.eraseIdx 0 :=
  claim_C2_amended prodMonitor oneRegScenario
    (Relation.ReflTransGen.single
      (Step.register initState .BACKTEST "a" (fun _ => by decide)))
    0 (mkQueuedTask "a" .BACKTEST 0 0 0 0 "") rfl (.error "boom")

/-! ### Claim C3 -/

/-- Claim C3: after every operation sequence the pending deque is sorted
by strictly descending priority with FIFO order (arrival numbers) among
equal priorities; and the insertion loop of `enqueue` places the new task
exactly before the first existing task of strictly lower priority,
appending at the tail when none exists. -/
theorem claim_C3_queue_ordering :
    (∀ (m : ResourceMonitor) (fresh : Bool) (st : TaskQueue),
      Reachable m fresh st → List.Pairwise queueRel st.queue) ∧
    (∀ (q : List QueuedTask) (t : QueuedTask),
      insertByPriority q t
        = q.takeWhile (fun x => decide (t.priority ≤ x.priority))
          ++ t :: q.dropWhile (fun x => decide (t.priority ≤ x.priority))) :=
  ⟨fun _ _ _ h => (SortInv_reachable h).1, insertByPriority_eq_takeWhile_dropWhile⟩

/-- Witness for C3: the two-enqueue trace where the later, higher-priority
task overtakes the earlier one. -/
theorem claim_C3_witness : List.Pairwise queueRel sortScenario.queue :=
  claim_C3_queue_ordering.1 prodMonitor false sortScenario
    (Relation.ReflTransGen.tail
      (Relation.ReflTransGen.single
        (Step.enqueue initState .BACKTEST 0 "a" (by simp)))
      (Step.enqueue (initState.enqueue .BACKTEST 0 "a").1 .MODEL_TRAINING 5 "b"
        (by simp)))

/-! ### Claim C4 -/

/-- Claim C4: for every job kind and sampled snapshot, `can_run_task`
admits iff both predicted availabilities (available minus requirement
times consumption factor) stay at or above the minimum thresholds, which
equal the totals times the buffer percentage; and the reason always
carries the computed numbers: on rejection a would-leave figure below the
violated threshold (the shortfall), on admission the two remaining
amounts (the surplus). -/
theorem claim_C4_admission (m : ResourceMonitor) (res : SystemResources)
    (tt : TaskType) (cf : Option ℚ) :
    m.min_cpu_cores = m.total_cpu_cores * m.buffer_percent ∧
    m.min_ram_gb = m.total_ram_gb * m.buffer_percent ∧
    ((m.can_run_task res tt cf).1 = true ↔
      (res.available_cpu_cores
          - (TASK_RESOURCE_REQUIREMENTS tt).cpu_cores * cf.getD m.consumption_factor
        ≥ m.min_cpu_cores ∧
       res.available_ram_gb
          - (TASK_RESOURCE_REQUIREMENTS tt).ram_gb * cf.getD m.consumption_factor
        ≥ m.min_ram_gb)) ∧
    ((m.can_run_task res tt cf).1 = false →
      ∃ would_leave threshold, would_leave < threshold ∧
        Reason.mentions (m.can_run_task res tt cf).2 would_leave ∧
        Reason.mentions (m.can_run_task res tt cf).2 threshold) ∧
    ((m.can_run_task res tt cf).1 = true →
      (m.can_run_task res tt cf).2 = Reason.canRun
        (res.available_cpu_cores
          - (TASK_RESOURCE_REQUIREMENTS tt).cpu_cores * cf.getD m.consumption_factor)
        (res.available_ram_gb
          - (TASK_RESOURCE_REQUIREMENTS tt).ram_gb * cf.getD m.consumption_factor)) := by
  rcases can_run_task_cases m res tt cf with ⟨hcpu, hram, hok⟩
  refine ⟨rfl, rfl, can_run_task_fst_iff m res tt cf, ?_, ?_⟩
  · intro hfalse
    by_cases h1 : res.available_cpu_cores
        - (TASK_RESOURCE_REQUIREMENTS tt).cpu_cores * cf.getD m.consumption_factor
        ≥ m.min_cpu_cores
    · by_cases h2 : res.available_ram_gb
          - (TASK_RESOURCE_REQUIREMENTS tt).ram_gb * cf.getD m.consumption_factor
          ≥ m.min_ram_gb
      · rw [hok h1 h2] at hfalse
        simp at hfalse
      · rw [hram h1 h2]
        exact ⟨_, m.min_ram_gb, lt_of_not_ge h2,
          Or.inr (Or.inr (Or.inl rfl)), Or.inr (Or.inr (Or.inr rfl))⟩
    · rw [hcpu h1]
      exact ⟨_, m.min_cpu_cores, lt_of_not_ge h1,
        Or.inr (Or.inr (Or.inl rfl)), Or.inr (Or.inr (Or.inr rfl))⟩
  · intro htrue
    by_cases h1 : res.available_cpu_cores
        - (TASK_RESOURCE_REQUIREMENTS tt).cpu_cores * cf.getD m.consumption_factor
        ≥ m.min_cpu_cores
    · by_cases h2 : res.available_ram_gb
          - (TASK_RESOURCE_REQUIREMENTS tt).ram_gb * cf.getD m.consumption_factor
          ≥ m.min_ram_gb
      · rw [hok h1 h2]
      · rw [hram h1 h2] at htrue
        simp at htrue
    · rw [hcpu h1] at htrue
      simp at htrue

/-- Witness for C4: the production monitor rejects MODEL_TRAINING at 2.0
available cores, and the reason names a would-leave figure below the
violated threshold. -/
theorem claim_C4_witness :
    ∃ would_leave threshold, would_leave < threshold ∧
      Reason.mentions
        (prodMonitor.can_run_task ⟨2, 10⟩ .MODEL_TRAINING none).2 would_leave ∧
      Reason.mentions
        (prodMonitor.can_run_task ⟨2, 10⟩ .MODEL_TRAINING none).2 threshold :=
  (claim_C4_admission prodMonitor ⟨2, 10⟩ .MODEL_TRAINING none).2.2.2.1
    (by with_unfolding_all decide)

/-! ### Claim C5 -/

/-- Claim C5: `try_execute_next` returns nothing on an empty queue; when
the head's kind is rejected it returns nothing and leaves the whole state
untouched (no head-of-line skipping); when the head is admitted it pops
exactly the head, inserts it into the running dict, dispatches its
wrapper (inflight grows, no completion yet, no event emitted) and returns
the head's id immediately. -/
theorem claim_C5_try_execute_next (m : ResourceMonitor) (res : SystemResources)
    (st : TaskQueue) :
    (st.queue = [] → TaskQueue.try_execute_next m res st = (none, st)) ∧
    (∀ x xs, st.queue = x :: xs →
      (m.can_run_task res x.task_type none).1 = false →
      TaskQueue.try_execute_next m res st = (none, st)) ∧
    (∀ x xs, st.queue = x :: xs →
      (m.can_run_task res x.task_type none).1 = true →
      (TaskQueue.try_execute_next m res st).1 = some x.task_id ∧
      (TaskQueue.try_execute_next m res st).2.queue = xs ∧
      (TaskQueue.try_execute_next m res st).2.running_tasks
        = dictInsert st.running_tasks x.task_id x ∧
      (TaskQueue.try_execute_next m res st).2.inflight = st.inflight ++ [x] ∧
      (TaskQueue.try_execute_next m res st).2.events = st.events ∧
      (TaskQueue.try_execute_next m res st).2.subscribers = st.subscribers ∧
      (TaskQueue.try_execute_next m res st).2.clock = st.clock) :=
  ⟨fun h => tryNext_nil h,
   fun _ _ h hc => tryNext_reject h hc,
   fun _ _ h hc => by
    rw [tryNext_admitted h hc]
    exact ⟨rfl, rfl, rfl, rfl, rfl, rfl, rfl⟩⟩

/-- Witness for C5: with 2.0 cores available the MODEL_TRAINING head is
rejected and the queue state is returned unchanged. -/
theorem claim_C5_witness :
    TaskQueue.try_execute_next prodMonitor ⟨2, 10⟩ rejectScenario
      = (none, rejectScenario) :=
  (claim_C5_try_execute_next prodMonitor ⟨2, 10⟩ rejectScenario).2.1
    (mkQueuedTask "mt" .MODEL_TRAINING 0 0 0 0 "") [] rfl
    (by with_unfolding_all decide)

/-! ### Claim C6 -/

/-- Claim C6 counterexample: the `task_queued` event does not carry the
inserted task's resulting position.  Enqueue "a" at priority 0, then "b"
at priority 1: "b" is inserted at position 1 (both `get_task_position`
and the status snapshot say so), yet its event says `queue_position = 2`
— the code emits `len(self.queue)` after insertion, not the position. -/
theorem claim_C6_counterexample :
    Reachable prodMonitor false priorityEnqueueScenario ∧
    priorityEnqueueScenario.events
      = [Event.task_queued "a" .BACKTEST 1 (1/2) 1 "",
         Event.task_queued "b" .BACKTEST 1 (1/2) 2 ""] ∧
    priorityEnqueueScenario.get_task_position "b" = some 1 ∧
    priorityEnqueueScenario.get_queue_status.queued_tasks.map
      QueuedTaskStatus.task_id = ["b", "a"] ∧
    priorityEnqueueScenario.get_queue_status.queued_tasks.map
      QueuedTaskStatus.queue_position = [1, 2] := by
  refine ⟨?_, ?_, ?_, ?_, ?_⟩
  · exact Relation.ReflTransGen.tail
      (Relation.ReflTransGen.single
        (Step.enqueue initState .BACKTEST 0 "a" (by simp)))
      (Step.enqueue (initState.enqueue .BACKTEST 0 "a").1 .BACKTEST 1 "b" (by simp))
  all_goals with_unfolding_all decide

/-- Claim C6 (amended): the `task_queued` event emitted by `enqueue`
carries `queue_position` equal to the total number of pending tasks after
the insertion (the queue length), which coincides with the inserted
task's own 1-indexed position only when it is appended at the tail. -/
theorem claim_C6_amended (st : TaskQueue) (tt : TaskType) (pr : Int)
    (tid : String) :
    (st.enqueue tt pr tid).1.events
      = st.events ++ [Event.task_queued tid tt
          (TASK_RESOURCE_REQUIREMENTS tt).cpu_cores
          (TASK_RESOURCE_REQUIREMENTS tt).ram_gb
          (st.enqueue tt pr tid).1.queue.length ""] ∧
    (st.enqueue tt pr tid).1.queue.length = st.queue.length + 1 := by
  constructor
  · exact enqueue_events st tt pr tid
  · rw [enqueue_queue]
    exact length_insertByPriority _ _

/-! ### Claim C7 -/

/-- Claim C7: production profile (20% buffer, 80% consumption factor)
with totals 8 cores / 16 GB gives thresholds 1.6 cores / 3.2 GB; at
5 cores / 10 GB available, BACKTEST is admitted with predicted
availability 4.2 cores / 9.6 GB; at 2.0 cores available, MODEL_TRAINING
is rejected with predicted availability 0.4 below the 1.6 threshold, and
the reason names both 0.4 and 1.6. -/
theorem claim_C7_numeric_scenarios :
    prodMonitor.buffer_percent = 0.20 ∧
    prodMonitor.consumption_factor = 0.80 ∧
    prodMonitor.min_cpu_cores = 1.6 ∧
    prodMonitor.min_ram_gb = 3.2 ∧
    prodMonitor.can_run_task ⟨5, 10⟩ .BACKTEST none
      = (true, Reason.canRun 4.2 9.6) ∧
    prodMonitor.can_run_task ⟨2, 10⟩ .MODEL_TRAINING none
      = (false, Reason.insufficientCPU 1.6 2 0.4 1.6) ∧
    Reason.mentions
      (prodMonitor.can_run_task ⟨2, 10⟩ .MODEL_TRAINING none).2 0.4 ∧
    Reason.mentions
      (prodMonitor.can_run_task ⟨2, 10⟩ .MODEL_TRAINING none).2 1.6 ∧
    (0.4 : ℚ) < 1.6 := by
  have h6 : prodMonitor.can_run_task ⟨2, 10⟩ .MODEL_TRAINING none
      = (false, Reason.insufficientCPU 1.6 2 0.4 1.6) := by
    with_unfolding_all decide
  refine ⟨by with_unfolding_all decide, by with_unfolding_all decide,
    by with_unfolding_all decide, by with_unfolding_all decide,
    by with_unfolding_all decide, h6, ?_, ?_, by norm_num⟩
  · rw [h6]
    exact Or.inr (Or.inr (Or.inl rfl))
  · rw [h6]
    exact Or.inl rfl

/-! ### Claim C8 -/

/-- Claim C8: with the job kind, consumption factor and thresholds fixed,
admission is monotone in the sampled availability, and the predicted
headroom (predicted available minus threshold, per resource) is
non-decreasing. -/
theorem claim_C8_monotone (m : ResourceMonitor) (tt : TaskType) (cf : Option ℚ)
    (res1 res2 : SystemResources)
    (hcpu : res1.available_cpu_cores ≤ res2.available_cpu_cores)
    (hram : res1.available_ram_gb ≤ res2.available_ram_gb) :
    ((m.can_run_task res1 tt cf).1 = true → (m.can_run_task res2 tt cf).1 = true) ∧
    cpuHeadroom m res1 tt cf ≤ cpuHeadroom m res2 tt cf ∧
    ramHeadroom m res1 tt cf ≤ ramHeadroom m res2 tt cf := by
  refine ⟨?_, ?_, ?_⟩
  · intro h
    rw [can_run_task_fst_iff] at h ⊢
    rcases h with ⟨ha, hb⟩
    constructor
    · linarith
    · linarith
  · unfold cpuHeadroom
    linarith
  · unfold ramHeadroom
    linarith

/-- Witness for C8 at concrete snapshots 5/10 and 6/11. -/
theorem claim_C8_witness :
    cpuHeadroom prodMonitor ⟨5, 10⟩ .BACKTEST none
      ≤ cpuHeadroom prodMonitor ⟨6, 11⟩ .BACKTEST none ∧
    ramHeadroom prodMonitor ⟨5, 10⟩ .BACKTEST none
      ≤ ramHeadroom prodMonitor ⟨6, 11⟩ .BACKTEST none :=
  ⟨(claim_C8_monotone prodMonitor .BACKTEST none ⟨5, 10⟩ ⟨6, 11⟩
      (by with_unfolding_all decide) (by with_unfolding_all decide)).2.1,
   (claim_C8_monotone prodMonitor .BACKTEST none ⟨5, 10⟩ ⟨6, 11⟩
      (by with_unfolding_all decide) (by with_unfolding_all decide)).2.2⟩

/-! ### Claim C9 -/

/-- Claim C9: event emission is total and non-blocking — it touches
neither the pending deque, the running dict nor the in-flight wrappers;
every subscriber channel is offered the event with `put_nowait`; a full
channel drops this one event for that subscriber only, every channel
with spare capacity receives it appended. -/
theorem claim_C9_emit_event (st : TaskQueue) (e : Event) :
    (st.emit_event e).queue = st.queue ∧
    (st.emit_event e).running_tasks = st.running_tasks ∧
    (st.emit_event e).inflight = st.inflight ∧
    (st.emit_event e).subscribers = st.subscribers.map (fun s => s.put_nowait e) ∧
    (∀ s : Subscriber, s.isFull = true → s.put_nowait e = s) ∧
    (∀ s : Subscriber, s.isFull = false →
      (s.put_nowait e).buffer = s.buffer ++ [e] ∧
      (s.put_nowait e).maxsize = s.maxsize) := by
  refine ⟨rfl, rfl, rfl, rfl, ?_, ?_⟩
  · intro s hf
    unfold Subscriber.put_nowait
    rw [hf]
    simp
  · intro s hf
    unfold Subscriber.put_nowait
    rw [hf]
    simp

/-- Witness for C9: a saturated one-slot channel drops the event. -/
theorem claim_C9_witness :
    Subscriber.put_nowait ⟨1, [Event.task_running "x" .BACKTEST 1 1]⟩
        (Event.task_running "y" .PREDICTION 1 1)
      = ⟨1, [Event.task_running "x" .BACKTEST 1 1]⟩ :=
  (claim_C9_emit_event initState (Event.task_running "y" .PREDICTION 1 1)).2.2.2.2.1
    ⟨1, [Event.task_running "x" .BACKTEST 1 1]⟩ rfl

/-! ### Claim C10 -/

/-- Claim C10: `__post_init__` overwrites whatever estimated figures a
`QueuedTask` was constructed with by the static table entry for its kind;
consequently every task ever held by a reachable queue state (pending,
running or in flight) carries the table footprint, whose values are
BACKTEST 1.0/0.5, MODEL_TRAINING 2.0/1.5, PREDICTION 0.5/0.3. -/
theorem claim_C10_estimates :
    (∀ (tid : String) (tt : TaskType) (pr : Int) (seq : Nat) (c r : ℚ)
      (d : String),
      (mkQueuedTask tid tt pr seq c r d).estimated_cpu_cores
        = (TASK_RESOURCE_REQUIREMENTS tt).cpu_cores ∧
      (mkQueuedTask tid tt pr seq c r d).estimated_ram_gb
        = (TASK_RESOURCE_REQUIREMENTS tt).ram_gb) ∧
    (∀ (m : ResourceMonitor) (fresh : Bool) (st : TaskQueue),
      Reachable m fresh st →
      (∀ t, t ∈ st.queue → estOk t) ∧
      (∀ p, p ∈ st.running_tasks → estOk p.2) ∧
      (∀ t, t ∈ st.inflight → estOk t)) ∧
    TASK_RESOURCE_REQUIREMENTS .BACKTEST = ⟨1, 1/2⟩ ∧
    TASK_RESOURCE_REQUIREMENTS .MODEL_TRAINING = ⟨2, 3/2⟩ ∧
    TASK_RESOURCE_REQUIREMENTS .PREDICTION = ⟨1/2, 3/10⟩ :=
  ⟨fun _ _ _ _ _ _ _ => ⟨rfl, rfl⟩,
   fun _ _ _ h => EstInv_reachable h,
   rfl, rfl, rfl⟩

/-- Witness for C10: the reachable one-registration state holds the
PREDICTION task with its table footprint. -/
theorem claim_C10_witness : estOk (mkQueuedTask "p" .PREDICTION 0 0 0 0 "") :=
  ((claim_C10_estimates.2.1 prodMonitor true regScenarioC10
      (Relation.ReflTransGen.single
        (Step.register initState .PREDICTION "p" (fun _ => by decide)))).2.1)
    ("p", mkQueuedTask "p" .PREDICTION 0 0 0 0 "") (by with_unfolding_all decide)

end ResourceManager
